import Mathlib

/-!
Shallow embedding of the banking system in `src/cmsc23.py`.

Modelling conventions:
* Python `float` amounts are modelled as `ℚ` (every arithmetic step the
  claims depend on is exact).
* A raised Python exception (`NotImplementedError`, `ValueError`) is the
  `none` component of an `Option` result; a normal boolean return is
  `some b`.  Every operation also returns the post-state, so that
  "no mutation" is expressible on the error channel as well.
* Python objects are mutable references; methods here are state passing.
  `BankSystem.transfer_funds` calls `transfer` with two references that
  alias exactly when the two identifiers coincide, so the embedding
  branches on that equality and uses `Account.transfer_self` (the body of
  `transfer` with `target_account` aliased to `self`) in the aliased case.
* The registry dictionary `self.accounts` is an association list in
  insertion order; Python dict assignment is `setKey` (replace if the key
  is present, append otherwise).
-/

namespace Banking

/-- Little-endian decimal digits of `n`, with explicit fuel
(structural recursion so that concrete instances reduce). -/
def toDigitsRev : Nat → Nat → List Nat
  | 0, _ => []
  | fuel + 1, n => if n = 0 then [] else n % 10 :: toDigitsRev fuel (n / 10)

/-- The character for a decimal digit. -/
def digitChar (d : Nat) : Char := Char.ofNat (48 + d)

/-- The decimal numeral of `n`, most significant digit first
(Python `str(n)` for a nonnegative integer). -/
def numChars (n : Nat) : List Char :=
  if n = 0 then [Char.ofNat 48] else ((toDigitsRev n n).reverse).map digitChar

/-- Python `f"{n:04}"`: the decimal numeral of `n` left-padded with zeros
to a minimum width of 4. -/
def pad4 (n : Nat) : String :=
  String.mk (List.replicate (4 - (numChars n).length) (Char.ofNat 48) ++ numChars n)

/-- The account identifier `f"ACC{n:04}"` generated by
`BankSystem.create_account` (line 152). -/
def accId (n : Nat) : String := "ACC" ++ pad4 n

/-- Little-endian decimal value of a digit list (left inverse of
`toDigitsRev`, used to prove identifiers distinct). -/
def ofDigitsNat : List Nat → Nat
  | [] => 0
  | d :: l => d + 10 * ofDigitsNat l

/-- Numeric value of the digits of an identifier after the three-character
prefix; a left inverse of `accId`. -/
def valOf (s : String) : Nat :=
  ofDigitsNat (((s.data.drop 3).reverse).map (fun c => c.toNat - 48))

/-- The concrete account classes of `cmsc23.py`: payload of the fields that
exist only on a subclass (`DebitAccount.__init__` lines 67-70,
`CreditAccount.__init__` lines 108-112). -/
inductive Variant where
  | payroll : Variant
  | debit (interest_rate : ℚ) (required_balance : ℚ) : Variant
  | credit (credit_limit : ℚ) (credit_balance : ℚ) (interest_rate : ℚ) : Variant
  deriving DecidableEq

/-- State of one `BankAccount` (lines 4-8) together with its subclass
payload. -/
structure Account where
  account_number : String
  owner : String
  balance : ℚ
  is_active : Bool
  variant : Variant
  deriving DecidableEq

/-- `PayrollAccount(account_number, owner, balance)`: the base constructor,
`is_active = True`. -/
def mkPayroll (account_number owner : String) (balance : ℚ) : Account :=
  ⟨account_number, owner, balance, true, Variant.payroll⟩

/-- `DebitAccount(account_number, owner, balance, interest_rate, required_balance)`
(defaults `0.01` and `100.0`). -/
def mkDebit (account_number owner : String)
    (balance interest_rate required_balance : ℚ) : Account :=
  ⟨account_number, owner, balance, true,
    Variant.debit interest_rate required_balance⟩

/-- `CreditAccount(account_number, owner, balance, credit_limit, interest_rate)`
(defaults `500.0` and `0.02`); `credit_balance` starts at `0.0` (line 111). -/
def mkCredit (account_number owner : String)
    (balance credit_limit interest_rate : ℚ) : Account :=
  ⟨account_number, owner, balance, true,
    Variant.credit credit_limit 0 interest_rate⟩

/-- The `credit_balance` attribute of a `CreditAccount` (0 for the other
classes, which have no such attribute). -/
def Account.creditBal (a : Account) : ℚ :=
  match a.variant with
  | Variant.credit _ cb _ => cb
  | _ => 0

/-- The `credit_limit` attribute of a `CreditAccount` (0 for the other
classes). -/
def Account.creditLim (a : Account) : ℚ :=
  match a.variant with
  | Variant.credit cl _ _ => cl
  | _ => 0

/-- `withdraw(amount)` of each class (lines 46-54, 72-80, 114-122): result
and post-state.  No class raises in `withdraw`. -/
def Account.withdraw (a : Account) (amount : ℚ) : Bool × Account :=
  match a.variant with
  | Variant.payroll =>
    if a.is_active = false then (false, a)
    else if amount > a.balance then (false, a)
    else (true, { a with balance := a.balance - amount })
  | Variant.debit _ _ =>
    if a.is_active = false then (false, a)
    else if amount > a.balance then (false, a)
    else (true, { a with balance := a.balance - amount })
  | Variant.credit cl cb ir =>
    if a.is_active = false then (false, a)
    else if cb + amount > cl then (false, a)
    else (true, { a with variant := Variant.credit cl (cb + amount) ir })

/-- `deposit(amount)` of each class (lines 56-57, 82-87, 124-129).
`PayrollAccount.deposit` raises `NotImplementedError`: result `none`. -/
def Account.deposit (a : Account) (amount : ℚ) : Option Bool × Account :=
  match a.variant with
  | Variant.payroll => (none, a)
  | Variant.debit _ _ =>
    if a.is_active = false then (some false, a)
    else (some true, { a with balance := a.balance + amount })
  | Variant.credit cl cb ir =>
    if a.is_active = false then (some false, a)
    else (some true, { a with variant := Variant.credit cl (max 0 (cb - amount)) ir })

/-- `transfer(target_account, amount)` of each class (lines 59-60, 89-98,
131-140), for a `target_account` that is a different object from `self`:
result, post-state of `self`, post-state of the target.
`PayrollAccount.transfer` raises: result `none`. -/
def Account.transfer (a target : Account) (amount : ℚ) :
    Option Bool × Account × Account :=
  match a.variant with
  | Variant.payroll => (none, a, target)
  | Variant.debit _ _ =>
    if a.is_active = false then (some false, a, target)
    else if amount > a.balance then (some false, a, target)
    else (some true, { a with balance := a.balance - amount },
      { target with balance := target.balance + amount })
  | Variant.credit cl cb ir =>
    if a.is_active = false then (some false, a, target)
    else if cb + amount > cl then (some false, a, target)
    else (some true, { a with variant := Variant.credit cl (cb + amount) ir },
      { target with balance := target.balance + amount })

/-- The body of `transfer` when `target_account` is the same object as
`self` (the aliased call made by `transfer_funds` when both identifiers
coincide): line 96 then line 97 act on one object in sequence. -/
def Account.transfer_self (a : Account) (amount : ℚ) : Option Bool × Account :=
  match a.variant with
  | Variant.payroll => (none, a)
  | Variant.debit _ _ =>
    if a.is_active = false then (some false, a)
    else if amount > a.balance then (some false, a)
    else (some true, { a with balance := a.balance - amount + amount })
  | Variant.credit cl cb ir =>
    if a.is_active = false then (some false, a)
    else if cb + amount > cl then (some false, a)
    else
      (some true,
        { a with
            variant := Variant.credit cl (cb + amount) ir,
            balance := a.balance + amount })

/-- `apply_monthly_changes()` of each class (lines 62-63, 100-104,
142-144). -/
def Account.apply_monthly_changes (a : Account) : Account :=
  match a.variant with
  | Variant.payroll => a
  | Variant.debit ir rb =>
    if a.is_active = true then
      let b := a.balance * (1 + ir)
      { a with balance := b, is_active := (if b < rb then false else a.is_active) }
    else a
  | Variant.credit cl cb ir =>
    if a.is_active = true ∧ cb > 0 then
      { a with variant := Variant.credit cl (cb * (1 + ir)) ir }
    else a

/-- `activate_account()` (lines 38-39). -/
def Account.activate_account (a : Account) : Account := { a with is_active := true }

/-- `deactivate_account()` (lines 41-42). -/
def Account.deactivate_account (a : Account) : Account := { a with is_active := false }

/-- Python dict assignment `d[k] = v` on an insertion-ordered association
list: replace the binding if the key is present, else append. -/
def setKey : List (String × Account) → String → Account → List (String × Account)
  | [], k, v => [(k, v)]
  | (k', v') :: rest, k, v =>
    if k' = k then (k, v) :: rest else (k', v') :: setKey rest k v

/-- The `BankSystem` registry (lines 147-149): `accounts` is the dict in
insertion order. -/
structure BankSystem where
  accounts : List (String × Account)
  deriving DecidableEq

/-- The keys of the registry dict. -/
def BankSystem.keys (s : BankSystem) : List String := s.accounts.map Prod.fst

/-- `self.accounts[k]` lookup / membership test. -/
def BankSystem.find (s : BankSystem) (k : String) : Option Account :=
  s.accounts.lookup k

/-- `BankSystem.create_account` (lines 151-163): builds the identifier from
the current dict size, instantiates the class named by `account_type`, and
stores it; an unrecognized type raises `ValueError` (`none`, registry
unchanged). -/
def BankSystem.create_account (s : BankSystem) (account_type owner : String)
    (initial_balance : ℚ) : Option Account × BankSystem :=
  let account_number := accId (s.accounts.length + 1)
  if account_type = "payroll" then
    let a := mkPayroll account_number owner initial_balance
    (some a, ⟨setKey s.accounts account_number a⟩)
  else if account_type = "debit" then
    let a := mkDebit account_number owner initial_balance (1 / 100) 100
    (some a, ⟨setKey s.accounts account_number a⟩)
  else if account_type = "credit" then
    let a := mkCredit account_number owner initial_balance 500 (1 / 50)
    (some a, ⟨setKey s.accounts account_number a⟩)
  else (none, s)

/-- `BankSystem.transfer_funds` (lines 165-169): absent identifier means
`False` with no mutation; otherwise the call
`self.accounts[from_account].transfer(self.accounts[to_account], amount)`,
whose two argument references alias exactly when the identifiers
coincide. -/
def BankSystem.transfer_funds (s : BankSystem) (from_account to_account : String)
    (amount : ℚ) : Option Bool × BankSystem :=
  match s.find from_account, s.find to_account with
  | some fa, some ta =>
    if from_account = to_account then
      let r := fa.transfer_self amount
      (r.1, ⟨setKey s.accounts from_account r.2⟩)
    else
      let r := fa.transfer ta amount
      (r.1, ⟨setKey (setKey s.accounts from_account r.2.1) to_account r.2.2⟩)
  | _, _ => (some false, s)

/-- `BankSystem.monthly_update` (lines 171-173). -/
def BankSystem.monthly_update (s : BankSystem) : BankSystem :=
  ⟨s.accounts.map (fun p => (p.1, p.2.apply_monthly_changes))⟩

/-- `BankSystem.deactivate_account` (lines 175-177). -/
def BankSystem.deactivate_account (s : BankSystem) (account_number : String) :
    BankSystem :=
  match s.find account_number with
  | some a => ⟨setKey s.accounts account_number a.deactivate_account⟩
  | none => s

/-- `BankSystem.activate_account` (lines 179-181). -/
def BankSystem.activate_account (s : BankSystem) (account_number : String) :
    BankSystem :=
  match s.find account_number with
  | some a => ⟨setKey s.accounts account_number a.activate_account⟩
  | none => s

/-- One `create_account` request. -/
structure CreateReq where
  account_type : String
  owner : String
  initial_balance : ℚ
  deriving DecidableEq

/-- Run a sequence of `create_account` calls, all required to succeed. -/
def runCreates : BankSystem → List CreateReq → Option BankSystem
  | s, [] => some s
  | s, r :: rest =>
    match s.create_account r.account_type r.owner r.initial_balance with
    | (some _, s') => runCreates s' rest
    | (none, _) => none

/-! ### Decimal formatting: `valOf` is a left inverse of `accId` -/

theorem toDigitsRev_all_lt (fuel : Nat) :
    ∀ n d, d ∈ toDigitsRev fuel n → d < 10 := by
  induction fuel with
  | zero => intro n d h; simp [toDigitsRev] at h
  | succ f ih =>
    intro n d h
    by_cases hn : n = 0
    · simp [toDigitsRev, hn] at h
    · simp only [toDigitsRev, if_neg hn, List.mem_cons] at h
      rcases h with h | h
      · subst h; exact Nat.mod_lt _ (by norm_num)
      · exact ih _ _ h

theorem ofDigitsNat_toDigitsRev (fuel : Nat) :
    ∀ n, n ≤ fuel → ofDigitsNat (toDigitsRev fuel n) = n := by
  induction fuel with
  | zero =>
    intro n h
    have : n = 0 := Nat.le_zero.mp h
    simp [this, toDigitsRev, ofDigitsNat]
  | succ f ih =>
    intro n h
    by_cases hn : n = 0
    · simp [hn, toDigitsRev, ofDigitsNat]
    · have hdiv : n / 10 ≤ f := by
        have : n / 10 < n := Nat.div_lt_self (Nat.pos_of_ne_zero hn) (by norm_num)
        omega
      simp only [toDigitsRev, if_neg hn, ofDigitsNat, ih _ hdiv]
      exact Nat.mod_add_div n 10

theorem ofDigitsNat_replicate_zero (z : Nat) :
    ofDigitsNat (List.replicate z 0) = 0 := by
  induction z with
  | zero => simp [ofDigitsNat]
  | succ m ih => simp [List.replicate, ofDigitsNat, ih]

theorem ofDigitsNat_append_zeros (L : List Nat) (z : Nat) :
    ofDigitsNat (L ++ List.replicate z 0) = ofDigitsNat L := by
  induction L with
  | nil => simp [ofDigitsNat, ofDigitsNat_replicate_zero]
  | cons d t ih => simp [ofDigitsNat, ih]

theorem digitChar_toNat (d : Nat) (h : d < 10) : (digitChar d).toNat - 48 = d := by
  interval_cases d <;> decide

theorem valOf_accId (n : Nat) : valOf (accId n) = n := by
  have hdata : (accId n).data =
      ("ACC".data) ++
        (List.replicate (4 - (numChars n).length) (Char.ofNat 48) ++ numChars n) := by
    rfl
  rw [valOf, hdata]
  have h3 : ("ACC".data).length = 3 := by decide
  rw [show (3 : Nat) = ("ACC".data).length from h3.symm, List.drop_left]
  rw [List.reverse_append, List.map_append, List.reverse_replicate]
  have hrep : (List.replicate (4 - (numChars n).length) (Char.ofNat 48)).map
      (fun c => c.toNat - 48) = List.replicate (4 - (numChars n).length) 0 := by
    simp [List.map_replicate]
  rw [hrep, ofDigitsNat_append_zeros]
  by_cases hn : n = 0
  · subst hn; decide
  · rw [numChars, if_neg hn]
    rw [← List.map_reverse, List.reverse_reverse, List.map_map]
    have hcongr : (toDigitsRev n n).map ((fun c => c.toNat - 48) ∘ digitChar) =
        (toDigitsRev n n).map id := by
      refine List.map_congr_left ?_
      intro d hd
      exact digitChar_toNat d (toDigitsRev_all_lt n n d hd)
    rw [hcongr, List.map_id]
    exact ofDigitsNat_toDigitsRev n n le_rfl

theorem accId_injective : Function.Injective accId := by
  intro m n h
  have hm := valOf_accId m
  rw [h, valOf_accId] at hm
  exact hm.symm

/-! ### Dict-assignment lemmas -/

theorem setKey_of_not_mem (l : List (String × Account)) (k : String) (v : Account)
    (h : k ∉ l.map Prod.fst) : setKey l k v = l ++ [(k, v)] := by
  induction l with
  | nil => rfl
  | cons p t ih =>
    obtain ⟨k', v'⟩ := p
    simp only [List.map_cons, List.mem_cons] at h
    push_neg at h
    rw [setKey, if_neg (fun hq => h.1 hq.symm), ih h.2]
    rfl

theorem lookup_setKey_self (l : List (String × Account)) (k : String) (v : Account) :
    List.lookup k (setKey l k v) = some v := by
  induction l with
  | nil => simp [setKey, List.lookup]
  | cons p t ih =>
    obtain ⟨k', v'⟩ := p
    rw [setKey]
    by_cases hk : k' = k
    · rw [if_pos hk]
      simp [List.lookup]
    · rw [if_neg hk]
      have : (k == k') = false := by
        simp only [beq_eq_false_iff_ne, ne_eq]
        exact fun q => hk q.symm
      simp [List.lookup, this, ih]

theorem lookup_setKey_ne (l : List (String × Account)) (j k : String) (v : Account)
    (h : j ≠ k) : List.lookup j (setKey l k v) = List.lookup j l := by
  induction l with
  | nil => simp [setKey, List.lookup, beq_eq_false_iff_ne.mpr h]
  | cons p t ih =>
    obtain ⟨k', v'⟩ := p
    rw [setKey]
    by_cases hk : k' = k
    · subst hk
      simp [List.lookup, beq_eq_false_iff_ne.mpr h]
    · rw [if_neg hk]
      by_cases hj : j = k'
      · subst hj
        simp [List.lookup]
      · simp [List.lookup, beq_eq_false_iff_ne.mpr hj, ih]

theorem setKey_of_lookup_eq (l : List (String × Account)) (k : String) (v : Account)
    (h : List.lookup k l = some v) : setKey l k v = l := by
  induction l with
  | nil => simp [List.lookup] at h
  | cons p t ih =>
    obtain ⟨k', v'⟩ := p
    by_cases hk : k = k'
    · subst hk
      simp only [List.lookup, beq_self_eq_true] at h
      rw [setKey, if_pos rfl]
      simp at h
      rw [h]
    · have hb : (k == k') = false := beq_eq_false_iff_ne.mpr hk
      simp only [List.lookup, hb] at h
      rw [setKey, if_neg (fun q => hk q.symm), ih h]

/-! ### Per-operation frame lemmas (checks precede mutations) -/

theorem withdraw_fail_frame (a : Account) (amt : ℚ) (h : (a.withdraw amt).1 = false) :
    (a.withdraw amt).2 = a := by
  unfold Account.withdraw at h ⊢
  split at h <;> simp_all <;> split at h <;> simp_all <;> split at h <;> simp_all

theorem deposit_fail_frame (a : Account) (amt : ℚ) (h : (a.deposit amt).1 ≠ some true) :
    (a.deposit amt).2 = a := by
  unfold Account.deposit at h ⊢
  split at h <;> simp_all <;> split at h <;> simp_all

theorem transfer_fail_frame (a t : Account) (amt : ℚ) (h : (a.transfer t amt).1 ≠ some true) :
    (a.transfer t amt).2 = (a, t) := by
  unfold Account.transfer at h ⊢
  split at h <;> simp_all <;> split at h <;> simp_all <;> split at h <;> simp_all

theorem transfer_self_fail_frame (a : Account) (amt : ℚ)
    (h : (a.transfer_self amt).1 ≠ some true) : (a.transfer_self amt).2 = a := by
  unfold Account.transfer_self at h ⊢
  split at h <;> simp_all <;> split at h <;> simp_all <;> split at h <;> simp_all

/-- A successful `create_account` call: the stored/returned account and the
dict assignment it performs. -/
theorem create_account_some (s : BankSystem) (ty ow : String) (b : ℚ)
    (a : Account) (s2 : BankSystem) (h : s.create_account ty ow b = (some a, s2)) :
    s2.accounts = setKey s.accounts (accId (s.accounts.length + 1)) a ∧
      a.is_active = true ∧ a.account_number = accId (s.accounts.length + 1) := by
  unfold BankSystem.create_account at h
  split at h
  · injection h with h1 h2
    injection h1 with h1
    subst h2; subst h1
    exact ⟨rfl, rfl, rfl⟩
  · split at h
    · injection h with h1 h2
      injection h1 with h1
      subst h2; subst h1
      exact ⟨rfl, rfl, rfl⟩
    · split at h
      · injection h with h1 h2
        injection h1 with h1
        subst h2; subst h1
        exact ⟨rfl, rfl, rfl⟩
      · simp at h

/-- A failed `create_account` call leaves the registry untouched. -/
theorem create_account_none (s : BankSystem) (ty ow : String) (b : ℚ)
    (h : (s.create_account ty ow b).1 = none) : (s.create_account ty ow b).2 = s := by
  unfold BankSystem.create_account at h ⊢
  split at h <;> simp_all <;> split at h <;> simp_all <;> split at h <;> simp_all

/-! ### `is_active` preservation -/

theorem withdraw_preserves_active (a : Account) (amt : ℚ) :
    ((a.withdraw amt).2).is_active = a.is_active := by
  unfold Account.withdraw
  split <;> split <;> simp_all <;> split <;> simp_all

theorem deposit_preserves_active (a : Account) (amt : ℚ) :
    ((a.deposit amt).2).is_active = a.is_active := by
  unfold Account.deposit
  split <;> ((try split) <;> simp_all)

theorem transfer_preserves_active (a t : Account) (amt : ℚ) :
    ((a.transfer t amt).2.1).is_active = a.is_active ∧
      ((a.transfer t amt).2.2).is_active = t.is_active := by
  unfold Account.transfer
  split <;> ((try split) <;> ((try split) <;> simp_all))

theorem transfer_self_preserves_active (a : Account) (amt : ℚ) :
    ((a.transfer_self amt).2).is_active = a.is_active := by
  unfold Account.transfer_self
  split <;> ((try split) <;> ((try split) <;> simp_all))

theorem apply_deactivates_only_debit_low (a : Account)
    (h : (a.apply_monthly_changes).is_active = false) :
    a.is_active = false ∨
      ∃ ir rb, a.variant = Variant.debit ir rb ∧ a.balance * (1 + ir) < rb := by
  cases hv : a.variant with
  | payroll =>
    unfold Account.apply_monthly_changes at h
    simp only [hv] at h
    exact Or.inl h
  | debit ir rb =>
    unfold Account.apply_monthly_changes at h
    simp only [hv] at h
    by_cases ha : a.is_active = true
    · rw [if_pos ha] at h
      have h' : (if a.balance * (1 + ir) < rb then false else a.is_active) = false := h
      by_cases hlt : a.balance * (1 + ir) < rb
      · exact Or.inr ⟨ir, rb, rfl, hlt⟩
      · rw [if_neg hlt] at h'
        exact Or.inl h'
    · rw [if_neg ha] at h
      exact Or.inl h
  | credit cl cb ir =>
    unfold Account.apply_monthly_changes at h
    simp only [hv] at h
    by_cases hc : a.is_active = true ∧ cb > 0
    · rw [if_pos hc] at h
      exact Or.inl h
    · rw [if_neg hc] at h
      exact Or.inl h

/-! ### Sequential identifier generation -/

theorem runCreates_keys (reqs : List CreateReq) :
    ∀ (s : BankSystem) (n : Nat) (s' : BankSystem),
      s.keys = (List.range' 1 n).map accId →
      runCreates s reqs = some s' →
      s'.keys = (List.range' 1 (n + reqs.length)).map accId := by
  induction reqs with
  | nil =>
    intro s n s' hk h
    injection h with h
    subst h
    simpa using hk
  | cons r rest ih =>
    intro s n s' hk h
    rw [runCreates] at h
    rcases hc : s.create_account r.account_type r.owner r.initial_balance with ⟨a?, s2⟩
    rw [hc] at h
    cases a? with
    | none => simp at h
    | some a =>
      have hs2 := create_account_some s r.account_type r.owner r.initial_balance a s2 hc
      have hlen : s.accounts.length = n := by
        have hl := congrArg List.length hk
        simpa [BankSystem.keys, List.length_range'] using hl
      have hfresh : accId (n + 1) ∉ s.accounts.map Prod.fst := by
        rw [show s.accounts.map Prod.fst = s.keys from rfl, hk]
        intro hm
        rcases List.mem_map.mp hm with ⟨m, hm1, hm2⟩
        have hmn := accId_injective hm2
        subst hmn
        have := List.mem_range'_1.mp hm1
        omega
      have hkeys2 : s2.keys = (List.range' 1 (n + 1)).map accId := by
        have h1 : s2.accounts = s.accounts ++ [(accId (n + 1), a)] := by
          rw [hs2.1, hlen]
          exact setKey_of_not_mem _ _ _ hfresh
        rw [BankSystem.keys, h1, List.map_append]
        rw [show (s.accounts.map Prod.fst) = s.keys from rfl, hk]
        rw [List.range'_concat]
        simp [Nat.add_comm]
      have hrest := ih s2 (n + 1) s' hkeys2 h
      have harith : n + (r :: rest).length = n + 1 + rest.length := by
        simp [List.length_cons]
        omega
      rw [harith]
      exact hrest

theorem transfer_funds_fail_frame (s : BankSystem) (f t : String) (amt : ℚ)
    (h : (s.transfer_funds f t amt).1 ≠ some true) : (s.transfer_funds f t amt).2 = s := by
  unfold BankSystem.transfer_funds at h ⊢
  rcases hf : s.find f with _ | fa <;> rcases ht : s.find t with _ | ta <;>
    simp only [hf, ht] at h ⊢
  by_cases hft : f = t
  · rw [if_pos hft] at h ⊢
    have hfa : (fa.transfer_self amt).2 = fa := transfer_self_fail_frame fa amt h
    rw [hfa]
    have : setKey s.accounts f fa = s.accounts := setKey_of_lookup_eq _ _ _ hf
    rw [this]
  · rw [if_neg hft] at h ⊢
    have hfa : (fa.transfer ta amt).2 = (fa, ta) := transfer_fail_frame fa ta amt h
    rw [hfa]
    have h1 : setKey s.accounts f fa = s.accounts := setKey_of_lookup_eq _ _ _ hf
    rw [h1]
    have h2 : setKey s.accounts t ta = s.accounts := setKey_of_lookup_eq _ _ _ ht
    rw [h2]

/-! ## Claims -/

/-- C3: every operation of every account variant and of the registry is
atomic on failure: whenever a call returns `False` or raises, no account
field and no registry state is mutated (every check precedes every
mutation). -/
theorem failure_atomicity_claim :
    (∀ (a : Account) (amt : ℚ), (a.withdraw amt).1 = false → (a.withdraw amt).2 = a) ∧
    (∀ (a : Account) (amt : ℚ), (a.deposit amt).1 ≠ some true → (a.deposit amt).2 = a) ∧
    (∀ (a t : Account) (amt : ℚ),
      (a.transfer t amt).1 ≠ some true → (a.transfer t amt).2 = (a, t)) ∧
    (∀ (a : Account) (amt : ℚ),
      (a.transfer_self amt).1 ≠ some true → (a.transfer_self amt).2 = a) ∧
    (∀ (s : BankSystem) (ty ow : String) (b : ℚ),
      (s.create_account ty ow b).1 = none → (s.create_account ty ow b).2 = s) ∧
    (∀ (s : BankSystem) (f t : String) (amt : ℚ),
      (s.transfer_funds f t amt).1 ≠ some true → (s.transfer_funds f t amt).2 = s) :=
  ⟨withdraw_fail_frame, deposit_fail_frame, transfer_fail_frame,
    transfer_self_fail_frame, create_account_none, transfer_funds_fail_frame⟩

/-- Witness for C3: a transfer between two identifiers absent from an empty
registry fails and leaves the registry unchanged. -/
theorem failure_atomicity_claim_witness :
    ((⟨[]⟩ : BankSystem).transfer_funds "A" "B" 5).2 = ⟨[]⟩ :=
  failure_atomicity_claim.2.2.2.2.2 ⟨[]⟩ "A" "B" 5 (by decide)

/-- C4: starting from a fresh registry, any sequence of successful
`create_account` calls assigns the n-th account the identifier
`ACC` + (n zero-padded to width 4), and the keys are pairwise distinct. -/
theorem created_ids_sequential_claim :
    ∀ (reqs : List CreateReq) (s' : BankSystem),
      runCreates ⟨[]⟩ reqs = some s' →
      s'.keys = (List.range' 1 reqs.length).map accId ∧ s'.keys.Nodup := by
  intro reqs s' h
  have h0 : (⟨[]⟩ : BankSystem).keys = (List.range' 1 0).map accId := by
    simp [BankSystem.keys]
  have hk := runCreates_keys reqs ⟨[]⟩ 0 s' h0 h
  rw [Nat.zero_add] at hk
  refine ⟨hk, ?_⟩
  rw [hk]
  exact (List.nodup_range' 1 reqs.length).map accId_injective

/-- Witness for C4: two successful creations yield keys `ACC0001`,
`ACC0002`, pairwise distinct. -/
theorem created_ids_sequential_claim_witness :
    ∃ s', runCreates ⟨[]⟩ [⟨"debit", "A", 0⟩, ⟨"credit", "B", 0⟩] = some s' ∧
      (s'.keys = (List.range' 1 2).map accId ∧ s'.keys.Nodup) := by
  have hrun : runCreates ⟨[]⟩ [⟨"debit", "A", 0⟩, ⟨"credit", "B", 0⟩] =
      some ⟨[(accId 1, mkDebit (accId 1) "A" 0 (1 / 100) 100),
        (accId 2, mkCredit (accId 2) "B" 0 500 (1 / 50))]⟩ := rfl
  exact ⟨_, hrun, created_ids_sequential_claim _ _ hrun⟩

/-- C6: on an active DebitAccount, `apply_monthly_changes` multiplies the
balance by `1 + interest_rate` and then deactivates exactly when the new
balance is below `required_balance`; with balance 50, rate 0.01 and
minimum 100 this yields balance 50.5 and an inactive account. -/
theorem debit_period_update_claim :
    ((mkDebit "ACC0001" "Dana" 50 (1 / 100) 100).apply_monthly_changes =
      ⟨"ACC0001", "Dana", 101 / 2, false, Variant.debit (1 / 100) 100⟩) ∧
    (∀ (a : Account) (ir rb : ℚ), a.variant = Variant.debit ir rb →
      a.is_active = true →
      a.apply_monthly_changes =
        { a with
            balance := a.balance * (1 + ir),
            is_active := (if a.balance * (1 + ir) < rb then false else true) }) := by
  constructor
  · have hb : (50 : ℚ) * (1 + 1 / 100) = 101 / 2 := by norm_num
    simp only [mkDebit, Account.apply_monthly_changes, if_pos rfl, if_true, hb]
    rw [if_pos (show (101 : ℚ) / 2 < 100 by norm_num)]
  · intro a ir rb hv ha
    unfold Account.apply_monthly_changes
    simp only [hv]
    rw [if_pos ha, ha]

/-- Witness for C6: the structural clause applied to an active
DebitAccount with balance 200. -/
theorem debit_period_update_claim_witness :
    (mkDebit "W" "O" 200 (1 / 100) 100).apply_monthly_changes =
      { mkDebit "W" "O" 200 (1 / 100) 100 with
          balance := (mkDebit "W" "O" 200 (1 / 100) 100).balance * (1 + 1 / 100),
          is_active :=
            (if (mkDebit "W" "O" 200 (1 / 100) 100).balance * (1 + 1 / 100) < 100
              then false else true) } :=
  debit_period_update_claim.2 (mkDebit "W" "O" 200 (1 / 100) 100) (1 / 100) 100 rfl rfl

/-- C7: on a fresh registry, creating debit Alice (200) then credit Bob (0)
and transferring 50 from `ACC0001` to `ACC0002` returns `True`, leaves
Alice at 150, and adds 50 to Bob's `balance` attribute (his
`credit_balance` stays 0). -/
theorem registry_transfer_scenario_claim :
    ((BankSystem.create_account ⟨[]⟩ "debit" "Alice" 200).2.create_account
        "credit" "Bob" 0).2.transfer_funds "ACC0001" "ACC0002" 50 =
      (some true,
        ⟨[("ACC0001", ⟨"ACC0001", "Alice", 150, true, Variant.debit (1 / 100) 100⟩),
          ("ACC0002", ⟨"ACC0002", "Bob", 50, true, Variant.credit 500 0 (1 / 50)⟩)]⟩) := by
  have h1 : (BankSystem.create_account ⟨[]⟩ "debit" "Alice" 200).2 =
      ⟨[("ACC0001", ⟨"ACC0001", "Alice", 200, true, Variant.debit (1 / 100) 100⟩)]⟩ := by
    simp [BankSystem.create_account, setKey, mkDebit, (by decide : accId 1 = "ACC0001")]
  rw [h1]
  have h2 : (BankSystem.create_account
        ⟨[("ACC0001", ⟨"ACC0001", "Alice", 200, true, Variant.debit (1 / 100) 100⟩)]⟩
        "credit" "Bob" 0).2 =
      ⟨[("ACC0001", ⟨"ACC0001", "Alice", 200, true, Variant.debit (1 / 100) 100⟩),
        ("ACC0002", ⟨"ACC0002", "Bob", 0, true, Variant.credit 500 0 (1 / 50)⟩)]⟩ := by
    simp [BankSystem.create_account, setKey, mkCredit, (by decide : accId 2 = "ACC0002")]
  rw [h2]
  simp [BankSystem.transfer_funds, BankSystem.find, List.lookup, setKey, Account.transfer]
  norm_num

/-- C8: every account stored by `create_account` starts active, and the only
transitions to inactive are an explicit deactivation or a DebitAccount
period update whose compounded balance falls below the required minimum. -/
theorem active_at_creation_claim :
    (∀ (s : BankSystem) (ty ow : String) (b : ℚ) (a : Account) (s2 : BankSystem),
      s.create_account ty ow b = (some a, s2) → a.is_active = true) ∧
    (∀ (a : Account) (amt : ℚ), ((a.withdraw amt).2).is_active = a.is_active) ∧
    (∀ (a : Account) (amt : ℚ), ((a.deposit amt).2).is_active = a.is_active) ∧
    (∀ (a t : Account) (amt : ℚ), ((a.transfer t amt).2.1).is_active = a.is_active ∧
      ((a.transfer t amt).2.2).is_active = t.is_active) ∧
    (∀ (a : Account) (amt : ℚ), ((a.transfer_self amt).2).is_active = a.is_active) ∧
    (∀ a : Account, a.activate_account.is_active = true) ∧
    (∀ a : Account, (a.apply_monthly_changes).is_active = false →
      a.is_active = false ∨
        ∃ ir rb, a.variant = Variant.debit ir rb ∧ a.balance * (1 + ir) < rb) := by
  refine ⟨?_, withdraw_preserves_active, deposit_preserves_active,
    transfer_preserves_active, transfer_self_preserves_active, ?_,
    apply_deactivates_only_debit_low⟩
  · intro s ty ow b a s2 h
    exact (create_account_some s ty ow b a s2 h).2.1
  · intro a
    rfl

/-- Witness for C8: the freshly created payroll account is active. -/
theorem active_at_creation_claim_witness :
    (mkPayroll (accId 1) "P" 3).is_active = true := by
  have h : BankSystem.create_account ⟨[]⟩ "payroll" "P" 3 =
      (some (mkPayroll (accId 1) "P" 3),
        ⟨[(accId 1, mkPayroll (accId 1) "P" 3)]⟩) := rfl
  exact active_at_creation_claim.1 ⟨[]⟩ "payroll" "P" 3 _ _ h

/-- C9: `create_account("credit", owner, b)` stores a CreditAccount with
`credit_balance = 0` and `balance = b`, and the `balance` field of an
account never feeds into any `credit_balance` computation. -/
theorem credit_creation_claim :
    (∀ (s : BankSystem) (ow : String) (b : ℚ) (a : Account) (s2 : BankSystem),
      s.create_account "credit" ow b = (some a, s2) →
      a.creditBal = 0 ∧ a.balance = b ∧ a.variant = Variant.credit 500 0 (1 / 50)) ∧
    (∀ (a : Account) (b' amt : ℚ),
      ((({ a with balance := b' }).withdraw amt).2).creditBal =
        ((a.withdraw amt).2).creditBal ∧
      ((({ a with balance := b' }).deposit amt).2).creditBal =
        ((a.deposit amt).2).creditBal ∧
      (({ a with balance := b' }).apply_monthly_changes).creditBal =
        (a.apply_monthly_changes).creditBal ∧
      (∀ t : Account, ((({ a with balance := b' }).transfer t amt).2.1).creditBal =
        ((a.transfer t amt).2.1).creditBal) ∧
      (∀ f : Account, ((f.transfer a amt).2.2).creditBal = a.creditBal)) := by
  constructor
  · intro s ow b a s2 h
    unfold BankSystem.create_account at h
    simp only [if_neg (by decide : ¬("credit" = "payroll")),
      if_neg (by decide : ¬("credit" = "debit")), if_pos rfl] at h
    injection h with h1 h2
    injection h1 with h1
    subst h1
    exact ⟨rfl, rfl, rfl⟩
  · intro a b' amt
    obtain ⟨num, ow1, bal, act, v⟩ := a
    refine ⟨?_, ?_, ?_, ?_, ?_⟩
    · cases v <;> simp [Account.withdraw, Account.creditBal] <;>
        split_ifs <;> simp [Account.creditBal]
    · cases v <;> simp [Account.deposit, Account.creditBal] <;>
        split_ifs <;> simp [Account.creditBal]
    · cases v <;> simp [Account.apply_monthly_changes, Account.creditBal] <;>
        split_ifs <;> simp [Account.creditBal]
    · intro t
      cases v <;> simp [Account.transfer, Account.creditBal] <;>
        split_ifs <;> simp [Account.creditBal]
    · intro f
      obtain ⟨num2, ow2, bal2, act2, v2⟩ := f
      cases v2 <;> simp [Account.transfer, Account.creditBal] <;>
        split_ifs <;> simp [Account.creditBal]

/-- Witness for C9: the creation clause at a concrete credit creation with
initial balance 7. -/
theorem credit_creation_claim_witness :
    (mkCredit (accId 1) "B" 7 500 (1 / 50)).creditBal = 0 ∧
      (mkCredit (accId 1) "B" 7 500 (1 / 50)).balance = 7 ∧
      (mkCredit (accId 1) "B" 7 500 (1 / 50)).variant = Variant.credit 500 0 (1 / 50) := by
  have h : BankSystem.create_account ⟨[]⟩ "credit" "B" 7 =
      (some (mkCredit (accId 1) "B" 7 500 (1 / 50)),
        ⟨[(accId 1, mkCredit (accId 1) "B" 7 500 (1 / 50))]⟩) := rfl
  exact credit_creation_claim.1 ⟨[]⟩ "B" 7 _ _ h

/-- C5: `transfer_funds` returns `False` and mutates nothing when either
identifier is absent; when both are present it returns exactly the result
of `fromAccount.transfer(toAccount, amount)` and applies exactly that
call's state effect (the two argument references alias when the
identifiers coincide). -/
theorem transfer_funds_delegation_claim :
    ∀ (s : BankSystem) (f t : String) (amt : ℚ),
      ((s.find f = none ∨ s.find t = none) →
        s.transfer_funds f t amt = (some false, s)) ∧
      (∀ fa ta, s.find f = some fa → s.find t = some ta → f ≠ t →
        (s.transfer_funds f t amt).1 = (fa.transfer ta amt).1 ∧
        (∀ k, ((s.transfer_funds f t amt).2).find k =
          if k = t then some (fa.transfer ta amt).2.2
          else if k = f then some (fa.transfer ta amt).2.1
          else s.find k)) ∧
      (∀ fa, s.find f = some fa → f = t →
        (s.transfer_funds f t amt).1 = (fa.transfer_self amt).1 ∧
        (∀ k, ((s.transfer_funds f t amt).2).find k =
          if k = f then some (fa.transfer_self amt).2 else s.find k)) := by
  intro s f t amt
  refine ⟨?_, ?_, ?_⟩
  · intro h
    unfold BankSystem.transfer_funds
    rcases hf : s.find f with _ | fa <;> rcases ht : s.find t with _ | ta <;>
      simp only [hf, ht]
    rw [hf, ht] at h
    simp at h
  · intro fa ta hf ht hft
    unfold BankSystem.transfer_funds
    simp only [hf, ht]
    rw [if_neg hft]
    refine ⟨rfl, ?_⟩
    intro k
    show List.lookup k (setKey (setKey s.accounts f (fa.transfer ta amt).2.1) t
      (fa.transfer ta amt).2.2) = _
    by_cases hkt : k = t
    · subst hkt
      rw [if_pos rfl, lookup_setKey_self]
    · rw [if_neg hkt, lookup_setKey_ne _ _ _ _ hkt]
      by_cases hkf : k = f
      · subst hkf
        rw [if_pos rfl, lookup_setKey_self]
      · rw [if_neg hkf, lookup_setKey_ne _ _ _ _ hkf]
        rfl
  · intro fa hf hft
    subst hft
    unfold BankSystem.transfer_funds
    simp only [hf, if_true]
    refine ⟨trivial, ?_⟩
    intro k
    show List.lookup k (setKey s.accounts f (fa.transfer_self amt).2) = _
    by_cases hk : k = f
    · subst hk
      rw [if_pos rfl, lookup_setKey_self]
    · rw [if_neg hk, lookup_setKey_ne _ _ _ _ hk]
      rfl

/-- Witness for C5: a transfer between absent identifiers on the empty
registry returns `False` and changes nothing. -/
theorem transfer_funds_delegation_claim_witness :
    (⟨[]⟩ : BankSystem).transfer_funds "A" "B" 5 = (some false, ⟨[]⟩) :=
  (transfer_funds_delegation_claim ⟨[]⟩ "A" "B" 5).1 (Or.inl rfl)

/-- C1 counterexample: a CreditAccount created with the registry defaults,
drawn up to its limit (`withdraw 500` succeeds and keeps
`credit_balance = 500 ≤ credit_limit`), violates
`credit_balance ≤ credit_limit` after one `apply_monthly_changes`
(`500 * 1.02 = 510 > 500`). -/
theorem credit_limit_apply_cex :
    ¬ ((((mkCredit "ACC0001" "Olga" 0 500 (1 / 50)).withdraw
          500).2.apply_monthly_changes).creditBal ≤
        (((mkCredit "ACC0001" "Olga" 0 500 (1 / 50)).withdraw
          500).2.apply_monthly_changes).creditLim) := by
  have h1 : ((mkCredit "ACC0001" "Olga" 0 500 (1 / 50)).withdraw 500).2 =
      ⟨"ACC0001", "Olga", 0, true, Variant.credit 500 500 (1 / 50)⟩ := by
    simp [mkCredit, Account.withdraw]
  rw [h1]
  have h2 : (true = true ∧ (500 : ℚ) > 0) := by norm_num
  simp [Account.apply_monthly_changes, Account.creditBal, Account.creditLim, if_pos h2]

/-- C1 amended: at creation `credit_balance = 0` is within the limit; for
nonnegative amounts, `withdraw`, `deposit` and `transfer` preserve
`0 ≤ credit_balance ≤ credit_limit`; `apply_monthly_changes` preserves
`credit_balance ≥ 0` (for a nonnegative rate) but not the upper bound. -/
theorem credit_invariant_amended :
    (∀ (s : BankSystem) (ow : String) (b : ℚ) (a : Account) (s2 : BankSystem),
      s.create_account "credit" ow b = (some a, s2) →
      0 ≤ a.creditBal ∧ a.creditBal ≤ a.creditLim) ∧
    (∀ (a : Account) (cl cb ir amt : ℚ), a.variant = Variant.credit cl cb ir →
      0 ≤ cb → cb ≤ cl → 0 ≤ amt →
      (0 ≤ ((a.withdraw amt).2).creditBal ∧ ((a.withdraw amt).2).creditBal ≤ cl) ∧
      (0 ≤ ((a.deposit amt).2).creditBal ∧ ((a.deposit amt).2).creditBal ≤ cl) ∧
      (∀ t : Account, 0 ≤ ((a.transfer t amt).2.1).creditBal ∧
        ((a.transfer t amt).2.1).creditBal ≤ cl)) ∧
    (∀ (a : Account) (cl cb ir : ℚ), a.variant = Variant.credit cl cb ir →
      0 ≤ cb → 0 ≤ ir → 0 ≤ (a.apply_monthly_changes).creditBal) := by
  refine ⟨?_, ?_, ?_⟩
  · intro s ow b a s2 h
    unfold BankSystem.create_account at h
    simp only [if_neg (by decide : ¬("credit" = "payroll")),
      if_neg (by decide : ¬("credit" = "debit")), if_pos rfl] at h
    injection h with h1 h2
    injection h1 with h1
    subst h1
    constructor <;> norm_num [mkCredit, Account.creditBal, Account.creditLim]
  · intro a cl cb ir amt hv hcb hcl hamt
    refine ⟨?_, ?_, ?_⟩
    · unfold Account.withdraw
      simp only [hv]
      by_cases h1 : a.is_active = false
      · simp [h1, Account.creditBal, hv, hcb, hcl]
      · rw [if_neg h1]
        by_cases h2 : cb + amt > cl
        · simp [h2, Account.creditBal, hv, hcb, hcl]
        · rw [if_neg h2]
          push_neg at h2
          constructor <;> simp [Account.creditBal] <;> linarith
    · unfold Account.deposit
      simp only [hv]
      by_cases h1 : a.is_active = false
      · simp [h1, Account.creditBal, hv, hcb, hcl]
      · rw [if_neg h1]
        refine ⟨?_, ?_⟩ <;> simp only [Account.creditBal]
        · exact le_max_left 0 _
        · exact max_le (by linarith) (by linarith)
    · intro t
      unfold Account.transfer
      simp only [hv]
      by_cases h1 : a.is_active = false
      · simp [h1, Account.creditBal, hv, hcb, hcl]
      · rw [if_neg h1]
        by_cases h2 : cb + amt > cl
        · simp [h2, Account.creditBal, hv, hcb, hcl]
        · rw [if_neg h2]
          push_neg at h2
          constructor <;> simp [Account.creditBal] <;> linarith
  · intro a cl cb ir hv hcb hir
    unfold Account.apply_monthly_changes
    simp only [hv]
    by_cases hc : a.is_active = true ∧ cb > 0
    · rw [if_pos hc]
      simp only [Account.creditBal]
      exact mul_nonneg hcb (by linarith)
    · rw [if_neg hc]
      simp [Account.creditBal, hv, hcb]

/-- Witness for C1: the preservation clause at a fresh default
CreditAccount and a draw of 5. -/
theorem credit_invariant_amended_witness :
    0 ≤ (((mkCredit "X" "O" 0 500 (1 / 50)).withdraw 5).2).creditBal ∧
      (((mkCredit "X" "O" 0 500 (1 / 50)).withdraw 5).2).creditBal ≤ 500 :=
  (credit_invariant_amended.2.1 (mkCredit "X" "O" 0 500 (1 / 50)) 500 0 (1 / 50) 5
    rfl le_rfl (by norm_num) (by norm_num)).1

/-- C2 counterexample: an inactive PayrollAccount's `deposit` raises
`NotImplementedError` instead of returning `False`. -/
theorem inactive_payroll_deposit_cex :
    ¬ ((((mkPayroll "ACC0001" "Pat" 10).deactivate_account).deposit 5).1 = some false) := by
  simp [mkPayroll, Account.deactivate_account, Account.deposit]

/-- C2 amended: an inactive account's `withdraw` returns `False` with no
mutation for every variant; `deposit`/`transfer` return `False` with no
mutation for debit and credit accounts, while for payroll accounts they
raise the unsupported-operation error (never a `False` return), also with
no mutation. -/
theorem inactive_rejects_amended :
    ∀ a : Account, a.is_active = false →
      (∀ amt : ℚ, a.withdraw amt = (false, a)) ∧
      (∀ amt : ℚ, a.variant ≠ Variant.payroll → a.deposit amt = (some false, a)) ∧
      (∀ (t : Account) (amt : ℚ), a.variant ≠ Variant.payroll →
        a.transfer t amt = (some false, a, t)) ∧
      (∀ amt : ℚ, a.variant = Variant.payroll → a.deposit amt = (none, a)) ∧
      (∀ (t : Account) (amt : ℚ), a.variant = Variant.payroll →
        a.transfer t amt = (none, a, t)) := by
  intro a ha
  refine ⟨?_, ?_, ?_, ?_, ?_⟩
  · intro amt
    cases hv : a.variant <;> simp [Account.withdraw, hv, ha]
  · intro amt hnp
    cases hv : a.variant with
    | payroll => exact absurd hv hnp
    | debit ir rb => simp [Account.deposit, hv, ha]
    | credit cl cb ir => simp [Account.deposit, hv, ha]
  · intro t amt hnp
    cases hv : a.variant with
    | payroll => exact absurd hv hnp
    | debit ir rb => simp [Account.transfer, hv, ha]
    | credit cl cb ir => simp [Account.transfer, hv, ha]
  · intro amt hp
    cases hv : a.variant <;> simp_all [Account.deposit]
  · intro t amt hp
    cases hv : a.variant <;> simp_all [Account.transfer]

/-- Witness for C2: a deactivated DebitAccount rejects a withdrawal of 3
unchanged. -/
theorem inactive_rejects_amended_witness :
    ((mkDebit "D" "O" 5 (1 / 100) 100).deactivate_account).withdraw 3 =
      (false, (mkDebit "D" "O" 5 (1 / 100) 100).deactivate_account) :=
  (inactive_rejects_amended ((mkDebit "D" "O" 5 (1 / 100) 100).deactivate_account) rfl).1 3

/-- C10 counterexample: on an active DebitAccount with balance −10, the
negative withdrawal −5 trips the insufficient-balance check
(−5 > −10) and returns `False`, not `True`. -/
theorem negative_withdraw_cex :
    ((mkDebit "ACC0001" "Ned" (-10) (1 / 100) 100).withdraw (-5)).1 = false := by
  simp [mkDebit, Account.withdraw]
  norm_num

/-- C10 amended: no operation validates that the amount is positive: a
negative withdrawal succeeds and increases the balance by the absolute
amount whenever the amount is at most the balance (in particular whenever
the balance is nonnegative), and a negative deposit on an active
DebitAccount always succeeds and decreases the balance by the absolute
amount, possibly below zero. -/
theorem no_amount_validation_amended :
    ∀ (a : Account) (amt : ℚ), a.is_active = true → amt < 0 →
      ((a.variant = Variant.payroll ∨ (∃ ir rb, a.variant = Variant.debit ir rb)) →
        amt ≤ a.balance →
        (a.withdraw amt).1 = true ∧
          ((a.withdraw amt).2).balance = a.balance + |amt|) ∧
      ((∃ ir rb, a.variant = Variant.debit ir rb) →
        (a.deposit amt).1 = some true ∧
          ((a.deposit amt).2).balance = a.balance - |amt|) := by
  intro a amt ha hneg
  have habs : |amt| = -amt := abs_of_neg hneg
  constructor
  · intro hv hle
    have hnot : ¬ (amt > a.balance) := not_lt.mpr hle
    rcases hv with hv | ⟨ir, rb, hv⟩ <;>
      simp [Account.withdraw, hv, ha, hnot, habs] <;> ring
  · rintro ⟨ir, rb, hv⟩
    simp [Account.deposit, hv, ha, habs]
    try ring

/-- Witness for C10: balance 5, withdraw −10 succeeds to 15; deposit −10
succeeds to −5, below zero. -/
theorem no_amount_validation_amended_witness :
    (((mkDebit "N" "O" 5 (1 / 100) 100).withdraw (-10)).1 = true ∧
      ((mkDebit "N" "O" 5 (1 / 100) 100).withdraw (-10)).2.balance =
        (mkDebit "N" "O" 5 (1 / 100) 100).balance + |(-10 : ℚ)|) ∧
    (((mkDebit "N" "O" 5 (1 / 100) 100).deposit (-10)).1 = some true ∧
      ((mkDebit "N" "O" 5 (1 / 100) 100).deposit (-10)).2.balance =
        (mkDebit "N" "O" 5 (1 / 100) 100).balance - |(-10 : ℚ)|) := by
  have h := no_amount_validation_amended (mkDebit "N" "O" 5 (1 / 100) 100) (-10)
    rfl (by norm_num)
  exact ⟨h.1 (Or.inr ⟨1 / 100, 100, rfl⟩) (by norm_num [mkDebit]), h.2 ⟨1 / 100, 100, rfl⟩⟩

end Banking
